import Mathlib

/-!
Shallow embedding of `src/wp_backup.py` (a WordPress backup script) and
proofs about its retention, snapshot, packaging and shipping logic.

Conventions of the embedding:
* Calendar dates are triples `(y, m, d) : Nat × Nat × Nat`; the proleptic
  Gregorian ordinal `ymd2ord` mirrors CPython's `datetime._ymd2ord`
  (`toordinal`), with `ymd2ord 1 1 1 = 1`.
* A `datetime` instant is represented by its total microsecond count
  `ord * usPerDay + timeOfDayUs`; CPython compares and subtracts
  `datetime` values exactly by this quantity (ordinal plus time of day),
  so `<` on the representation is faithful to `datetime.__lt__`, and
  `now - timedelta(days=k)` is `now - k * usPerDay`.
* File names are Lean `String`s manipulated through their character
  lists; `splitOnChar` mirrors Python `str.split` with a one-character
  separator, `pyStartsWith`/`pyEndsWith` mirror `str.startswith` /
  `str.endswith`.
* `strptimeYmd` mirrors `datetime.strptime(s, "%Y%m%d")`: CPython's
  `_strptime` compiles the format to the regex
  `(\d\d\d\d)(1[0-2]|0[1-9]|[1-9])(3[01]|[12]\d|0[1-9]|[1-9])`, takes the
  backtracking-first match, raises `ValueError` when no match exists or
  characters remain unconsumed, and then `datetime(y, m, d)` validates the
  calendar date (`MINYEAR = 1`, day bounded by the month length). Note the
  month and day fields may be one or two digits, so strings of length
  5 to 8 after the year can parse; this leniency is modelled faithfully.
* Directory trees are finite association lists `List (List String × String)`
  from component paths to file contents.
* The FTP session of `upload_backup` is modelled as a trace of operations
  `FtpOp`; fallibility of the external world (transfer, listing, deletes,
  file reads) is supplied through Boolean oracles, and a raised exception
  truncates the trace exactly where the Python control flow stops.
-/

/-! ## Calendar arithmetic (CPython `datetime` internals) -/

/-- Leap-year test, as CPython `datetime._is_leap`. -/
def isLeap (y : Nat) : Bool :=
  decide (y % 4 = 0 ∧ (y % 100 ≠ 0 ∨ y % 400 = 0))

/-- Month lengths of a non-leap year, as CPython `_DAYS_IN_MONTH`
(1-indexed; index 0 is a placeholder). -/
def DAYS_IN_MONTH : List Nat :=
  [0, 31, 28, 31, 30, 31, 30, 31, 31, 30, 31, 30, 31]

/-- Number of days in month `m` of year `y`, as CPython
`datetime._days_in_month`. -/
def daysInMonth (y m : Nat) : Nat :=
  if m = 2 ∧ isLeap y then 29 else DAYS_IN_MONTH.getD m 0

/-- Days before January 1st of year `y`, as CPython
`datetime._days_before_year`. -/
def days_before_year (y : Nat) : Nat :=
  (y - 1) * 365 + (y - 1) / 4 - (y - 1) / 100 + (y - 1) / 400

/-- Days in year `y` preceding the first of month `m`, as CPython
`datetime._days_before_month`. -/
def days_before_month (y m : Nat) : Nat :=
  (List.range' 1 (m - 1)).foldl (fun acc mm => acc + daysInMonth y mm) 0

/-- Proleptic Gregorian ordinal of a date, as CPython `datetime._ymd2ord`
(`date.toordinal`); `ymd2ord 1 1 1 = 1`. -/
def ymd2ord (y m d : Nat) : Nat :=
  days_before_year y + days_before_month y m + d

/-- Microseconds per day; `timedelta(days=k)` is `k * usPerDay`
microseconds, and `datetime` resolution is one microsecond. -/
def usPerDay : Nat := 86400000000

/-- The calendar day before `(y, m, d)`, i.e. the date component of
`datetime - timedelta(days=1)` for any valid date other than the minimal
`0001-01-01` (where CPython raises `OverflowError`). -/
def prevDay (y m d : Nat) : Nat × Nat × Nat :=
  if 2 ≤ d then (y, m, d - 1)
  else if 2 ≤ m then (y, m - 1, daysInMonth y (m - 1))
  else (y - 1, 12, 31)

/-- Validity of a calendar date exactly as `datetime(y, m, d)` accepts it:
`MINYEAR = 1 ≤ y ≤ 9999 = MAXYEAR`, `1 ≤ m ≤ 12`, `1 ≤ d ≤` month length. -/
def validDate (y m d : Nat) : Prop :=
  1 ≤ y ∧ y ≤ 9999 ∧ 1 ≤ m ∧ m ≤ 12 ∧ 1 ≤ d ∧ d ≤ daysInMonth y m

instance (y m d : Nat) : Decidable (validDate y m d) := by
  unfold validDate; infer_instance

/-! ## String helpers (Python `str` methods) -/

/-- Python `s.split(c)` for a single-character separator: splits on every
occurrence, keeping empty pieces (`''.split('_') == ['']`). -/
def splitOnChar (c : Char) (l : List Char) : List (List Char) :=
  l.foldr
    (fun ch acc =>
      if ch = c then [] :: acc
      else
        match acc with
        | h :: t => (ch :: h) :: t
        | [] => [[ch]])
    [[]]

/-- Python `s.startswith(pre)`. -/
def pyStartsWith (pre s : List Char) : Bool := pre.isPrefixOf s

/-- Python `s.endswith(suf)`. -/
def pyEndsWith (suf s : List Char) : Bool := suf.isSuffixOf s

/-- Decimal digit value of a character. -/
def dval (c : Char) : Nat := c.toNat - 48

/-- Zero-padded fixed-width decimal rendering, as used by
`strftime('%Y%m%d')` (`%Y` four digits, `%m`/`%d` two digits). -/
def pad (w n : Nat) : String :=
  String.mk (List.replicate (w - (toString n).length) '0') ++ toString n

/-! ## `strptime(s, "%Y%m%d")` -/

/-- Day group of CPython's `%d` regex `3[0-1]|[1-2]\d|0[1-9]|[1-9]| [1-9]`
(the last alternative accepts a space-padded day), required (by the
surrounding parse) to consume the whole remaining input; the two-character
alternatives are mutually exclusive on their first character, and a
partial (single-character) match of `[1-9]` that leaves input unconsumed
makes CPython raise `ValueError` rather than backtrack, which coincides
with `none` here. -/
def matchDayFull : List Char → Option Nat
  | [c1, c2] =>
    if c1 = '3' ∧ (c2 = '0' ∨ c2 = '1') then some (30 + dval c2)
    else if (c1 = '1' ∨ c1 = '2') ∧ c2.isDigit then some (10 * dval c1 + dval c2)
    else if c1 = '0' ∧ ('1' ≤ c2 ∧ c2 ≤ '9') then some (dval c2)
    else if c1 = ' ' ∧ ('1' ≤ c2 ∧ c2 ≤ '9') then some (dval c2)
    else none
  | [c1] => if '1' ≤ c1 ∧ c1 ≤ '9' then some (dval c1) else none
  | _ => none

/-- Month-then-day part of the `%m%d` parse: the month group
`1[0-2]|0[1-9]|[1-9]` is tried two-digit first; the regex backtracks to
the one-digit month alternative when no day can follow, and the overall
match must consume the entire input (CPython raises `ValueError` on
"unconverted data remains"). -/
def parseMonthDay (r : List Char) : Option (Nat × Nat) :=
  let one : Option (Nat × Nat) :=
    match r with
    | c1 :: rest =>
      if '1' ≤ c1 ∧ c1 ≤ '9' then (matchDayFull rest).map (fun d => (dval c1, d))
      else none
    | [] => none
  match r with
  | c1 :: c2 :: rest =>
    let m2 : Option Nat :=
      if c1 = '1' ∧ (c2 = '0' ∨ c2 = '1' ∨ c2 = '2') then some (10 + dval c2)
      else if c1 = '0' ∧ ('1' ≤ c2 ∧ c2 ≤ '9') then some (dval c2)
      else none
    match m2 with
    | some m =>
      match matchDayFull rest with
      | some d => some (m, d)
      | none => one
    | none => one
  | _ => one

/-- Regex phase of `strptime(s, "%Y%m%d")`: exactly four digits of year,
then month and day as above, consuming the whole string. -/
def parseYmd (l : List Char) : Option (Nat × Nat × Nat) :=
  match l with
  | c1 :: c2 :: c3 :: c4 :: rest =>
    if c1.isDigit ∧ c2.isDigit ∧ c3.isDigit ∧ c4.isDigit then
      (parseMonthDay rest).map
        (fun md => (1000 * dval c1 + 100 * dval c2 + 10 * dval c3 + dval c4, md.1, md.2))
    else none
  | _ => none

/-- Full `datetime.strptime(s, "%Y%m%d")`: the regex phase followed by the
`datetime(y, m, d)` constructor's calendar validation (`ValueError`,
i.e. `none`, on year 0 or a day beyond the month length; the regex already
bounds `m ≤ 12`, `d ≤ 31`, and four year digits give `y ≤ 9999`). -/
def strptimeYmd (l : List Char) : Option (Nat × Nat × Nat) :=
  match parseYmd l with
  | some (y, m, d) => if 1 ≤ y ∧ d ≤ daysInMonth y m then some (y, m, d) else none
  | none => none

/-! ## Local purge: `delete_yesterdays_backup` -/

/-- Backup artifact name for a date: the script's
`f'wordpress_backup_\x7bdate_str\x7d.zip'` with
`date_str = strftime('%Y%m%d')`. -/
def backupName (y m d : Nat) : String :=
  "wordpress_backup_" ++ pad 4 y ++ pad 2 m ++ pad 2 d ++ ".zip"

/-- Name targeted by the local purge: yesterday's artifact,
`wordpress_backup_<(now - timedelta(days=1)).strftime('%Y%m%d')>.zip`. -/
def yesterdayName (y m d : Nat) : String :=
  backupName (prevDay y m d).1 (prevDay y m d).2.1 (prevDay y m d).2.2

/-- The script's `delete_yesterdays_backup`, run on local date `(y, m, d)`
against the set of file names present in the backup directory: if
yesterday's artifact exists it is removed (`os.remove`) and a deletion
message is logged, otherwise the directory is untouched and the absence
is logged informationally. Returns the resulting file set and the logged
message. -/
def delete_yesterdays_backup (y m d : Nat) (files : List String) : List String × String :=
  if yesterdayName y m d ∈ files then
    (files.erase (yesterdayName y m d),
     "Deleted yesterday's backup file: " ++ yesterdayName y m d)
  else
    (files, "No backup found to delete for yesterday.")

/-! ## Remote shipping and pruning: `upload_backup` -/

/-- One observable operation on the FTP session, in the order the script
issues them: `FTP(host)` (connect), `login`, `cwd`, `storbinary` (stor),
`nlst`, `delete`, `quit`. -/
inductive FtpOp where
  | connect
  | login
  | cwd
  | stor
  | nlst
  | del (fn : String)
  | quit
deriving DecidableEq, Repr

/-- Date field extraction in `upload_backup`:
`filename.split('_')[2].split('.')[0]` (the `[2]` index is well defined for
every name passing the `startswith('wordpress_backup_')` guard, which
forces at least two underscores). -/
def extractDateField (fn : List Char) : List Char :=
  (splitOnChar '.' ((splitOnChar '_' fn).getD 2 [])).getD 0 []

/-- Deletion test applied to one listed name when `keep_days > 0`:
the name must pass `startswith('wordpress_backup_')` and
`endswith('.zip')`, its date field must survive
`datetime.strptime(file_date_str, '%Y%m%d')` (a `ValueError` is caught
and the file skipped), and the parsed date — a midnight instant — must be
strictly below `cutoff_date = datetime.now() - timedelta(days=keep_days)`,
an instant carrying the full time of day. `nowUs` is the current instant
in microseconds (`ordinal * usPerDay + time-of-day`). -/
def shouldDelete (nowUs keep_days : Int) (fn : String) : Bool :=
  pyStartsWith "wordpress_backup_".data fn.data &&
  pyEndsWith ".zip".data fn.data &&
  match strptimeYmd (extractDateField fn.data) with
  | some (y, m, d) =>
    decide ((↑(ymd2ord y m d * usPerDay) : Int) < nowUs - keep_days * (usPerDay : Int))
  | none => false

/-- The deletion loop over the retrieved listing: each qualifying name is
deleted in listing order; a failing `ftp.delete` (oracle `delOk`) raises,
ending the loop right after the failed attempt. Returns the issued
operations and whether the loop completed. -/
def deleteLoop (nowUs keep_days : Int) (delOk : String → Bool) :
    List String → List FtpOp × Bool
  | [] => ([], true)
  | fn :: rest =>
    if shouldDelete nowUs keep_days fn then
      if delOk fn then
        (FtpOp.del fn :: (deleteLoop nowUs keep_days delOk rest).1,
         (deleteLoop nowUs keep_days delOk rest).2)
      else ([FtpOp.del fn], false)
    else deleteLoop nowUs keep_days delOk rest

/-- The script's `upload_backup` as a trace of FTP-session operations:
connect, login, cwd, upload todays archive, then — only when
`keep_days > 0` — list the remote directory and delete stale artifacts,
and finally `ftp.quit()`. `ftp.quit()` is the last statement of the
function body with no `try`/`finally` around the stage, so any raised
error (transfer `storOk`, listing `nlstOk`, or a delete `delOk`) aborts
the function before `quit` is reached. Returns the operation trace and
whether the stage completed without raising. -/
def upload_backup (nowUs keep_days : Int) (listing : List String)
    (storOk nlstOk : Bool) (delOk : String → Bool) : List FtpOp × Bool :=
  let pre := [FtpOp.connect, FtpOp.login, FtpOp.cwd]
  if storOk then
    if keep_days > 0 then
      if nlstOk then
        let r := deleteLoop nowUs keep_days delOk listing
        if r.2 then (pre ++ [FtpOp.stor, FtpOp.nlst] ++ r.1 ++ [FtpOp.quit], true)
        else (pre ++ [FtpOp.stor, FtpOp.nlst] ++ r.1, false)
      else (pre ++ [FtpOp.stor, FtpOp.nlst], false)
    else (pre ++ [FtpOp.stor, FtpOp.quit], true)
  else (pre ++ [FtpOp.stor], false)

/-- Names deleted along a session trace. -/
def deletedOf (t : List FtpOp) : List String :=
  t.filterMap (fun op => match op with | FtpOp.del fn => some fn | _ => none)

/-- Specification-side staleness of a listed remote name, following the
amended wording for the remote pruning claim: the name matches the
`wordpress_backup_*.zip` pattern, its date field parses, and the parsed
date's midnight instant lies strictly before the instant
`now - keep_days` days (an instant that carries the run's time of day). -/
def specStaleArtifact (nowUs keep_days : Int) (fn : String) : Prop :=
  pyStartsWith "wordpress_backup_".data fn.data = true ∧
  pyEndsWith ".zip".data fn.data = true ∧
  ∃ y m d, strptimeYmd (extractDateField fn.data) = some (y, m, d) ∧
    (↑(ymd2ord y m d * usPerDay) : Int) < nowUs - keep_days * (usPerDay : Int)

theorem shouldDelete_iff_spec (nowUs keep_days : Int) (fn : String) :
    shouldDelete nowUs keep_days fn = true ↔ specStaleArtifact nowUs keep_days fn := by
  unfold shouldDelete specStaleArtifact
  rcases h : strptimeYmd (extractDateField fn.data) with _ | ⟨y, m, d⟩ <;>
    simp [h, Bool.and_eq_true]
  constructor
  · rintro ⟨⟨a, b⟩, c⟩
    exact ⟨a, b, y, m, d, ⟨rfl, rfl, rfl⟩, c⟩
  · rintro ⟨a, b, y', m', d', ⟨rfl, rfl, rfl⟩, c⟩
    exact ⟨⟨a, b⟩, c⟩

theorem deleteLoop_allOk (nowUs keep_days : Int) (l : List String) :
    deleteLoop nowUs keep_days (fun _ => true) l =
      ((l.filter (shouldDelete nowUs keep_days)).map FtpOp.del, true) := by
  induction l with
  | nil => rfl
  | cons fn rest ih =>
    by_cases h : shouldDelete nowUs keep_days fn = true <;>
      simp [deleteLoop, h, ih]

theorem deletedOf_append (a b : List FtpOp) :
    deletedOf (a ++ b) = deletedOf a ++ deletedOf b :=
  List.filterMap_append a b _

theorem deletedOf_map_del (l : List String) :
    deletedOf (l.map FtpOp.del) = l := by
  induction l with
  | nil => rfl
  | cons fn rest ih => simp [deletedOf, List.filterMap] at ih ⊢; exact ih

theorem mem_deletedOf_deleteLoop (nowUs keep_days : Int) (delOk : String → Bool)
    (l : List String) (fn : String)
    (h : fn ∈ deletedOf (deleteLoop nowUs keep_days delOk l).1) :
    shouldDelete nowUs keep_days fn = true := by
  induction l with
  | nil => simp [deleteLoop, deletedOf] at h
  | cons g rest ih =>
    by_cases hg : shouldDelete nowUs keep_days g = true
    · by_cases hd : delOk g = true
      · simp only [deleteLoop, hg, hd, if_pos] at h
        simp [deletedOf, List.filterMap] at h
        rcases h with h | h
        · exact h ▸ hg
        · exact ih (by simpa [deletedOf] using h)
      · simp only [deleteLoop, hg, if_pos] at h
        rw [if_neg hd] at h
        simp [deletedOf, List.filterMap] at h
        exact h ▸ hg
    · rw [deleteLoop, if_neg hg] at h
      exact ih h

theorem quit_not_mem_deleteLoop (nowUs keep_days : Int) (delOk : String → Bool)
    (l : List String) : FtpOp.quit ∉ (deleteLoop nowUs keep_days delOk l).1 := by
  induction l with
  | nil => simp [deleteLoop]
  | cons g rest ih =>
    by_cases hg : shouldDelete nowUs keep_days g = true
    · by_cases hd : delOk g = true <;>
        simp [deleteLoop, hg, hd, ih]
    · rw [deleteLoop, if_neg hg]
      exact ih

/-- C9: for every `keep_days` value less than or equal to zero, the remote
pruning step of `upload_backup` is skipped entirely: the session trace
contains no listing call (`nlst`) and no delete call, so the remote
artifact set is left unchanged, for every listing and every outcome of
the transfer. -/
theorem c9_keep_days_nonpositive_no_prune (keep_days : Int) (hk : keep_days ≤ 0)
    (nowUs : Int) (listing : List String) (storOk nlstOk : Bool)
    (delOk : String → Bool) :
    FtpOp.nlst ∉ (upload_backup nowUs keep_days listing storOk nlstOk delOk).1 ∧
    deletedOf (upload_backup nowUs keep_days listing storOk nlstOk delOk).1 = [] := by
  unfold upload_backup
  have hk' : ¬ keep_days > 0 := not_lt.mpr hk
  cases storOk <;> simp [hk', deletedOf, List.filterMap]

/-- C9 witness: with `keep_days = 0` and a concrete stale listing, no
listing call and no deletion happens. -/
theorem c9_witness :
    (0 : Int) ≤ 0 ∧
    (FtpOp.nlst ∉ (upload_backup 63840038400000000 0 ["wordpress_backup_20200101.zip"]
        true true (fun _ => true)).1 ∧
      deletedOf (upload_backup 63840038400000000 0 ["wordpress_backup_20200101.zip"]
        true true (fun _ => true)).1 = []) :=
  ⟨le_refl 0,
   c9_keep_days_nonpositive_no_prune 0 (le_refl 0) 63840038400000000
     ["wordpress_backup_20200101.zip"] true true (fun _ => true)⟩

/-- C7 counterexample: the claim says the session is closed on every exit
path of the ship stage. In the source, `ftp.quit()` is the last statement
of `upload_backup` with no `try`/`finally`: when the transfer
(`ftp.storbinary`) raises, the function propagates the error and `quit`
is never issued, so the session is not closed on that exit path. -/
theorem c7_counterexample :
    (upload_backup 0 3 [] false true (fun _ => true)).2 = false ∧
    FtpOp.quit ∉ (upload_backup 0 3 [] false true (fun _ => true)).1 := by
  decide

/-- C7 (amended): the remote session is closed exactly on the success
path: `quit` appears in the session trace if and only if the ship stage
completes without an error; when the transfer, the listing, or a delete
raises, the error propagates without the session being closed. -/
theorem c7_amended_quit_iff_success (nowUs keep_days : Int) (listing : List String)
    (storOk nlstOk : Bool) (delOk : String → Bool) :
    FtpOp.quit ∈ (upload_backup nowUs keep_days listing storOk nlstOk delOk).1 ↔
      (upload_backup nowUs keep_days listing storOk nlstOk delOk).2 = true := by
  unfold upload_backup
  cases storOk with
  | false => simp
  | true =>
    by_cases hk : keep_days > 0
    · cases nlstOk with
      | false => simp [hk]
      | true =>
        cases hr : (deleteLoop nowUs keep_days delOk listing).2 with
        | false =>
          simp [hk, hr, quit_not_mem_deleteLoop nowUs keep_days delOk listing]
        | true => simp [hk, hr]
    · simp [hk]

/-- C7 witness: on the all-success path the session is closed. -/
theorem c7_witness :
    FtpOp.quit ∈ (upload_backup 63840038400000000 3 ["wordpress_backup_20200101.zip"]
        true true (fun _ => true)).1 ↔
      (upload_backup 63840038400000000 3 ["wordpress_backup_20200101.zip"]
        true true (fun _ => true)).2 = true :=
  c7_amended_quit_iff_success 63840038400000000 3 ["wordpress_backup_20200101.zip"]
    true true (fun _ => true)

theorem mem_deletedOf_upload (nowUs keep_days : Int) (listing : List String)
    (storOk nlstOk : Bool) (delOk : String → Bool) (fn : String)
    (h : fn ∈ deletedOf (upload_backup nowUs keep_days listing storOk nlstOk delOk).1) :
    shouldDelete nowUs keep_days fn = true := by
  unfold upload_backup at h
  cases storOk with
  | false => simp [deletedOf, List.filterMap] at h
  | true =>
    by_cases hk : keep_days > 0
    · cases nlstOk with
      | false => simp [hk, deletedOf, List.filterMap] at h
      | true =>
        cases hr : (deleteLoop nowUs keep_days delOk listing).2 with
        | false =>
          simp only [hk, if_pos, if_true, hr, Bool.false_eq_true, if_false] at h
          rw [deletedOf_append, deletedOf_append] at h
          simp [deletedOf, List.filterMap] at h
          exact mem_deletedOf_deleteLoop nowUs keep_days delOk listing fn (by simpa [deletedOf] using h)
        | true =>
          simp only [hk, if_pos, if_true, hr, if_true] at h
          rw [deletedOf_append, deletedOf_append, deletedOf_append] at h
          simp [deletedOf, List.filterMap] at h
          exact mem_deletedOf_deleteLoop nowUs keep_days delOk listing fn (by simpa [deletedOf] using h)
    · simp [hk, deletedOf, List.filterMap] at h

/-- C1 counterexample: the claim says the artifact dated exactly
`today - keep_days` is retained. With `keep_days = 3` and the run at
2024-01-06 12:00:00, the artifact `wordpress_backup_20240103.zip` —
dated exactly `today - 3` — is deleted, because its parsed date is the
midnight instant 2024-01-03 00:00:00 while the cutoff
`datetime.now() - timedelta(days=3)` is 2024-01-03 12:00:00, an instant
carrying the run's time of day. -/
theorem c1_counterexample :
    deletedOf (upload_backup ((ymd2ord 2024 1 6 * usPerDay + 43200000000 : Nat) : Int) 3
        ["wordpress_backup_20240103.zip"] true true (fun _ => true)).1 =
      ["wordpress_backup_20240103.zip"] := by
  decide

/-- C1 (amended): for every `keep_days = k > 0` and remote listing, the
pruning step of `upload_backup` deletes exactly the listed names whose
parsed date — taken as a midnight instant — is strictly before the
instant `now - k` days, where `now` carries the run's time of day
(`hrep` states that this cutoff is representable, i.e. that
`datetime.now() - timedelta(days=k)` does not underflow the calendar);
consequently an artifact dated exactly `today - k` is deleted whenever
the run happens strictly after midnight and retained only when the run
happens exactly at midnight. -/
theorem c1_amended_prune_characterization (keep_days : Int) (hk : 0 < keep_days)
    (nowOrd tod : Nat) (htod : tod < usPerDay)
    (hrep : keep_days + 1 ≤ (nowOrd : Int)) (listing : List String) :
    (∀ fn, fn ∈ deletedOf (upload_backup ((nowOrd * usPerDay + tod : Nat) : Int)
          keep_days listing true true (fun _ => true)).1 ↔
        fn ∈ listing ∧
          specStaleArtifact ((nowOrd * usPerDay + tod : Nat) : Int) keep_days fn) ∧
    (∀ fn y m d, strptimeYmd (extractDateField fn.data) = some (y, m, d) →
      (ymd2ord y m d : Int) = (nowOrd : Int) - keep_days →
      (specStaleArtifact ((nowOrd * usPerDay + tod : Nat) : Int) keep_days fn ↔
        pyStartsWith "wordpress_backup_".data fn.data = true ∧
        pyEndsWith ".zip".data fn.data = true ∧ 0 < tod)) := by
  constructor
  · intro fn
    unfold upload_backup
    rw [deleteLoop_allOk]
    simp only [hk, if_pos, if_true]
    rw [deletedOf_append, deletedOf_append, deletedOf_append, deletedOf_map_del]
    simp only [deletedOf, List.filterMap]
    simp only [List.mem_filter, List.mem_append]
    constructor
    · rintro hmem
      simp at hmem
      rcases hmem with ⟨hin, hsd⟩
      exact ⟨hin, (shouldDelete_iff_spec _ _ fn).mp hsd⟩
    · rintro ⟨hin, hspec⟩
      simp
      exact ⟨hin, (shouldDelete_iff_spec _ _ fn).mpr hspec⟩
  · intro fn y m d hparse hord
    unfold specStaleArtifact
    rw [hparse]
    constructor
    · rintro ⟨ha, hb, y', m', d', heq, hlt⟩
      refine ⟨ha, hb, ?_⟩
      obtain ⟨rfl, rfl, rfl⟩ : y = y' ∧ m = m' ∧ d = d' := by
        injection heq with h1
        exact ⟨congrArg Prod.fst h1, congrArg Prod.fst (congrArg Prod.snd h1),
          congrArg Prod.snd (congrArg Prod.snd h1)⟩
      have := hlt
      push_cast at this ⊢
      rw [hord] at this
      simp only [usPerDay] at this
      omega
    · rintro ⟨ha, hb, htod0⟩
      refine ⟨ha, hb, y, m, d, rfl, ?_⟩
      push_cast
      rw [hord]
      simp only [usPerDay]
      omega

/-- C1 witness: the amended characterization applied to a concrete
two-element listing at 2024-01-06 12:00:00 with `keep_days = 3`. -/
theorem c1_witness :
    "wordpress_backup_20240101.zip" ∈
        deletedOf (upload_backup ((ymd2ord 2024 1 6 * usPerDay + 43200000000 : Nat) : Int) 3
          ["wordpress_backup_20240103.zip", "wordpress_backup_20240101.zip"]
          true true (fun _ => true)).1 ↔
      "wordpress_backup_20240101.zip" ∈
          ["wordpress_backup_20240103.zip", "wordpress_backup_20240101.zip"] ∧
        specStaleArtifact ((ymd2ord 2024 1 6 * usPerDay + 43200000000 : Nat) : Int) 3
          "wordpress_backup_20240101.zip" :=
  (c1_amended_prune_characterization 3 (by decide) (ymd2ord 2024 1 6) 43200000000
    (by decide) (by decide)
    ["wordpress_backup_20240103.zip", "wordpress_backup_20240101.zip"]).1
    "wordpress_backup_20240101.zip"

/-- C3 counterexample: the claim says a name matching the
`wordpress_backup_*.zip` pattern that does not carry a valid 8-digit
calendar date is never deleted. `wordpress_backup_202411.zip` has a
6-character date field, yet CPython's lenient `%Y%m%d` parse reads it as
2024-01-01 (one-digit month and day), so with the run at 2024-06-01
00:00:00 and `keep_days = 3` the pruning step deletes it. -/
theorem c3_counterexample :
    (extractDateField "wordpress_backup_202411.zip".data).length = 6 ∧
    deletedOf (upload_backup ((ymd2ord 2024 6 1 * usPerDay : Nat) : Int) 3
        ["wordpress_backup_202411.zip"] true true (fun _ => true)).1 =
      ["wordpress_backup_202411.zip"] := by
  decide

/-- C3 (amended): a listed name whose date field fails
`datetime.strptime(.., '%Y%m%d')` — CPython's lenient parse, which also
accepts one-digit month/day fields — is never deleted by the pruning
step, whatever the current time, retention setting and failure pattern
of the session; names whose field is not 8 digits but still parses
(e.g. `202411`, read as 2024-01-01) can however be deleted, so "valid
8-digit date" is not the precise skipping criterion. -/
theorem c3_amended_unparsable_never_deleted (nowUs keep_days : Int)
    (listing : List String) (storOk nlstOk : Bool) (delOk : String → Bool)
    (fn : String) (h : strptimeYmd (extractDateField fn.data) = none) :
    fn ∉ deletedOf (upload_backup nowUs keep_days listing storOk nlstOk delOk).1 := by
  intro hmem
  have hsd := mem_deletedOf_upload nowUs keep_days listing storOk nlstOk delOk fn hmem
  unfold shouldDelete at hsd
  rw [h] at hsd
  simp at hsd

/-- C3 witness: the spec's own example `wordpress_backup_20xx13.zip`
(non-digit date field) is never deleted. -/
theorem c3_witness :
    "wordpress_backup_20xx13.zip" ∉
      deletedOf (upload_backup ((ymd2ord 2024 6 1 * usPerDay : Nat) : Int) 3
        ["wordpress_backup_20xx13.zip", "wordpress_backup_20200101.zip"]
        true true (fun _ => true)).1 :=
  c3_amended_unparsable_never_deleted ((ymd2ord 2024 6 1 * usPerDay : Nat) : Int) 3
    ["wordpress_backup_20xx13.zip", "wordpress_backup_20200101.zip"]
    true true (fun _ => true) "wordpress_backup_20xx13.zip" (by decide)

/-! ## Directory trees, snapshot and packaging -/

/-- A directory tree as a finite list of files: component path
(relative to the tree root) paired with byte content. -/
abbrev FileTree := List (List String × String)

/-- The snapshot copy
`shutil.copytree(wp_directory, site_backup_dir, dirs_exist_ok=True)` at
the file level: every source file is (re)written at its relative path in
the destination, overwriting an existing file there, while destination
files at paths not present in the source are left in place —
`dirs_exist_ok=True` merges into an existing destination, it does not
clear it. -/
def copytree (src dst : FileTree) : FileTree :=
  src ++ dst.filter (fun e => !(src.any (fun s => decide (s.1 = e.1))))

/-- Writing one file at a path, replacing a previous file there (the
dump utility's `--result-file` target). -/
def upsert (t : FileTree) (p : List String) (c : String) : FileTree :=
  (p, c) :: t.filter (fun e => !(decide (e.1 = p)))

/-- Placing a tree under a directory of the backup root
(`site_data/…`, `database/…`). -/
def tagUnder (root : String) (t : FileTree) : FileTree :=
  t.map (fun e => (root :: e.1, e.2))

/-- The `os.walk` of one staging subtree inside `zip_backup`: every file
of the backup-directory tree whose path starts with component `root`,
returned as (full path, path relative to `root` — the
`os.path.relpath(..)` arcname —, content). -/
def zipWalk (fs : FileTree) (root : String) : List (List String × List String × String) :=
  fs.filterMap (fun e =>
    match e.1 with
    | r :: rest => if r = root then some (e.1, rest, e.2) else none
    | [] => none)

/-- The script's `zip_backup`: walk the `site_data` staging subtree, then
the `database` staging subtree, and store each file in the archive under
its path relative to its own staging root. Returns the archive entries. -/
def zip_backup (fs : FileTree) : FileTree :=
  (zipWalk fs "site_data" ++ zipWalk fs "database").map (fun t => (t.2.1, t.2.2))

/-- Entry-writing loop of `zip_backup` with a fallible read of each
walked file (oracle `readOk` on the full path): `zipfile.ZipFile(zip_file,
'w')` has already created the archive at its destination path, each
successful `backup_zip.write` appends one entry, and a raised read error
ends the run — the `with` block closes the partial archive, which stays
visible at the destination. Returns the entries present in the
destination file and whether the walk completed. -/
def zipRunGo (readOk : List String → Bool) :
    List (List String × List String × String) → FileTree × Bool
  | [] => ([], true)
  | t :: rest =>
    if readOk t.1 then
      ((t.2.1, t.2.2) :: (zipRunGo readOk rest).1, (zipRunGo readOk rest).2)
    else ([], false)

/-- The script's `zip_backup` with fallible file reads: the destination
archive exists as soon as the call starts and, at exit (normal or by a
propagated exception), contains the entries written so far. -/
def zip_backup_run (fs : FileTree) (readOk : List String → Bool) : FileTree × Bool :=
  zipRunGo readOk (zipWalk fs "site_data" ++ zipWalk fs "database")

/-- The script's `backup_site`: copy the WordPress tree into the
`site_data` staging subtree (`copytree`, fatal on failure — not modelled
as fallible here), then run `mysqldump` writing
`database/database_backup.sql`; a `CalledProcessError` (oracle `dumpOk`
false) is caught and logged and leaves the database staging subtree in
whatever state resulted (modelled: unchanged). Returns the new site
staging tree, the new database staging tree, and whether the dump
succeeded. -/
def backup_site (wp stagingSite stagingDb : FileTree) (dumpOk : Bool)
    (dumpOut : String) : FileTree × FileTree × Bool :=
  (copytree wp stagingSite,
   if dumpOk then upsert stagingDb ["database_backup.sql"] dumpOut else stagingDb,
   dumpOk)

/-- Observable outcome of one `main` invocation. -/
structure RunResult where
  exitOk : Bool
  dumpErrorLogged : Bool
  localAfter : List String
  archiveEntries : FileTree
  ftpTrace : List FtpOp
deriving Repr

/-- The script's `main` (named `main_run` since Lean reserves `main`): purge yesterday's local artifact, snapshot the
site and database, package the two staging subtrees (plus whatever else
sits under them in the backup directory: `rootFs` holds the
backup-root files such as the log and the archives themselves, which the
packager does not walk), and ship. The dump failure is caught inside
`backup_site`, so the run's exit status only reflects the ship stage
(copy and archive-write failures, which would also be fatal, are not
modelled as fallible here). -/
def main_run (todayY todayM todayD : Nat) (localFiles : List String)
    (wp stagingSite stagingDb rootFs : FileTree) (dumpOk : Bool) (dumpOut : String)
    (nowUs keep_days : Int) (listing : List String) (storOk nlstOk : Bool)
    (delOk : String → Bool) : RunResult :=
  let loc := delete_yesterdays_backup todayY todayM todayD localFiles
  let bs := backup_site wp stagingSite stagingDb dumpOk dumpOut
  let fs := tagUnder "site_data" bs.1 ++ tagUnder "database" bs.2.1 ++ rootFs
  let up := upload_backup nowUs keep_days listing storOk nlstOk delOk
  { exitOk := up.2
    dumpErrorLogged := !bs.2.2
    localAfter := loc.1
    archiveEntries := zip_backup fs
    ftpTrace := up.1 }

/-- C4 counterexample: the claim says the snapshot copy leaves the
staging site directory an exact mirror of the source tree, with no file
absent from the source surviving. `shutil.copytree` with
`dirs_exist_ok=True` merges into the pre-existing staging directory: a
staging file at a path absent from the source survives the copy, so the
result is not a mirror. -/
theorem c4_counterexample :
    copytree [(["a.txt"], "y")] [(["stale.txt"], "x")] ≠ [(["a.txt"], "y")] ∧
    (["stale.txt"], "x") ∈ copytree [(["a.txt"], "y")] [(["stale.txt"], "x")] ∧
    ["stale.txt"] ∉ List.map Prod.fst [((["a.txt"] : List String), ("y" : String))] := by
  decide

/-- C4 (amended): re-running the snapshot copy against a pre-existing,
possibly non-empty staging directory does not fail; every source file is
copied (source content wins at shared paths), anything surviving besides
the source files is a pre-existing staging file at a path absent from
the source, a second run against an unchanged source changes nothing,
and the staging directory equals the source tree exactly when the
pre-existing staging had no paths outside the source (in particular when
it was empty). -/
theorem c4_amended_copy_merges (src dst : FileTree) :
    (∀ e ∈ src, e ∈ copytree src dst) ∧
    (∀ e ∈ copytree src dst, e ∈ src ∨ (e ∈ dst ∧ ∀ s ∈ src, s.1 ≠ e.1)) ∧
    copytree src (copytree src dst) = copytree src dst ∧
    ((∀ e ∈ dst, ∃ s ∈ src, s.1 = e.1) → copytree src dst = src) := by
  refine ⟨fun e he => List.mem_append_left _ he, ?_, ?_, ?_⟩
  · intro e he
    rcases List.mem_append.mp he with h | h
    · exact Or.inl h
    · right
      have h' := List.mem_filter.mp h
      refine ⟨h'.1, ?_⟩
      intro s hs
      have := h'.2
      simp only [Bool.not_eq_true', List.any_eq_false, decide_eq_true_eq] at this
      exact this s hs
  · unfold copytree
    rw [List.filter_append]
    have h1 : src.filter (fun e => !(src.any (fun s => decide (s.1 = e.1)))) = [] := by
      rw [List.filter_eq_nil_iff]
      intro e he
      simp only [Bool.not_eq_true', Bool.not_eq_true, List.any_eq_true,
        decide_eq_true_eq, not_exists, not_forall, Bool.not_eq_false]
      exact ⟨e, he, rfl⟩
    have h2 : (dst.filter (fun e => !(src.any (fun s => decide (s.1 = e.1))))).filter
        (fun e => !(src.any (fun s => decide (s.1 = e.1)))) =
        dst.filter (fun e => !(src.any (fun s => decide (s.1 = e.1)))) := by
      rw [List.filter_eq_self]
      intro e he
      exact (List.mem_filter.mp he).2
    rw [h1, h2, List.nil_append]
  · intro h
    unfold copytree
    have h3 : dst.filter (fun e => !(src.any (fun s => decide (s.1 = e.1)))) = [] := by
      rw [List.filter_eq_nil_iff]
      intro e he
      obtain ⟨s, hs, heq⟩ := h e he
      simp only [Bool.not_eq_true', Bool.not_eq_true, List.any_eq_true,
        decide_eq_true_eq, not_exists, not_forall, Bool.not_eq_false]
      exact ⟨s, hs, heq⟩
    rw [h3, List.append_nil]

/-- C4 witness: the amended statement applied to a concrete source tree
and a concrete non-empty pre-existing staging tree. -/
theorem c4_witness :
    (∀ e ∈ ([(["a.txt"], "y")] : FileTree), e ∈ copytree [(["a.txt"], "y")] [(["stale.txt"], "x")]) ∧
    (∀ e ∈ copytree [(["a.txt"], "y")] [(["stale.txt"], "x")],
      e ∈ ([(["a.txt"], "y")] : FileTree) ∨
        (e ∈ ([(["stale.txt"], "x")] : FileTree) ∧
          ∀ s ∈ ([(["a.txt"], "y")] : FileTree), s.1 ≠ e.1)) ∧
    copytree [(["a.txt"], "y")] (copytree [(["a.txt"], "y")] [(["stale.txt"], "x")]) =
      copytree [(["a.txt"], "y")] [(["stale.txt"], "x")] ∧
    ((∀ e ∈ ([(["stale.txt"], "x")] : FileTree),
        ∃ s ∈ ([(["a.txt"], "y")] : FileTree), s.1 = e.1) →
      copytree [(["a.txt"], "y")] [(["stale.txt"], "x")] = [(["a.txt"], "y")]) :=
  c4_amended_copy_merges [(["a.txt"], "y")] [(["stale.txt"], "x")]

/-- C5: packing a staging site directory containing `a/b.txt` together
with a staging database directory containing `database_backup.sql`
produces an archive with exactly two entries, `a/b.txt` and
`database_backup.sql`, each stored relative to its own staging root with
no staging-root prefix in any entry name. -/
theorem c5_pack_two_entries (c1 c2 : String) :
    zip_backup [(["site_data", "a", "b.txt"], c1), (["database", "database_backup.sql"], c2)] =
      [(["a", "b.txt"], c1), (["database_backup.sql"], c2)] := by
  rfl

/-- C8: on every run day, the local purge deletes at most the single
file bearing yesterday's artifact name — any file it removes is that
name, and when that name is present (in a duplicate-free directory) it is
removed; when yesterday's artifact is absent nothing is deleted, no
error is raised, and the absence is logged informationally. The date
hypotheses delimit the faithful domain: a valid calendar date other than
the minimal `0001-01-01` (where CPython's date subtraction would
overflow). -/
theorem c8_purge_local (y m d : Nat) (files : List String)
    (hv : validDate y m d) (hmin : ¬(y = 1 ∧ m = 1 ∧ d = 1)) (hnd : files.Nodup) :
    ((delete_yesterdays_backup y m d files).1 ⊆ files) ∧
    (∀ f ∈ files, f ∉ (delete_yesterdays_backup y m d files).1 →
      f = yesterdayName y m d) ∧
    (yesterdayName y m d ∈ files →
      yesterdayName y m d ∉ (delete_yesterdays_backup y m d files).1) ∧
    (yesterdayName y m d ∉ files →
      (delete_yesterdays_backup y m d files).1 = files ∧
      (delete_yesterdays_backup y m d files).2 =
        "No backup found to delete for yesterday.") := by
  unfold delete_yesterdays_backup
  by_cases hm : yesterdayName y m d ∈ files
  · rw [if_pos hm]
    refine ⟨List.erase_subset _ _, ?_, ?_, fun h => absurd hm h⟩
    · intro f hf hnot
      by_contra hne
      exact hnot ((List.mem_erase_of_ne hne).mpr hf)
    · intro _
      exact hnd.not_mem_erase
  · rw [if_neg hm]
    exact ⟨fun f hf => hf, fun f hf hnot => absurd hf hnot,
      fun h => absurd h hm, fun _ => ⟨rfl, rfl⟩⟩

/-- C8 witness: run on 2024-03-01 (yesterday is the leap day
2024-02-29) against a directory not containing yesterday's artifact:
nothing is deleted and the absence is logged. -/
theorem c8_witness :
    (delete_yesterdays_backup 2024 3 1 ["wordpress_backup_20240105.zip"]).1 =
        ["wordpress_backup_20240105.zip"] ∧
    (delete_yesterdays_backup 2024 3 1 ["wordpress_backup_20240105.zip"]).2 =
        "No backup found to delete for yesterday." :=
  (c8_purge_local 2024 3 1 ["wordpress_backup_20240105.zip"] (by decide) (by decide)
    (by decide)).2.2.2 (by decide)

theorem zipWalk_append (a b : FileTree) (root : String) :
    zipWalk (a ++ b) root = zipWalk a root ++ zipWalk b root :=
  List.filterMap_append a b _

theorem zipWalk_eq_nil (fs : FileTree) (root : String)
    (h : ∀ e ∈ fs, e.1.head? ≠ some root) : zipWalk fs root = [] := by
  rw [zipWalk, List.filterMap_eq_nil_iff]
  intro a ha
  rcases a with ⟨p, c⟩
  match p with
  | [] => rfl
  | r :: rest =>
    have : r ≠ root := by
      intro hr
      exact h (r :: rest, c) ha (by simp [hr])
    simp [this]

theorem mem_zipWalk (fs : FileTree) (root : String)
    (t : List String × List String × String) (h : t ∈ zipWalk fs root) :
    ∃ rest c, t = (root :: rest, rest, c) ∧ (root :: rest, c) ∈ fs := by
  rw [zipWalk, List.mem_filterMap] at h
  obtain ⟨⟨p, c⟩, hpc, heq⟩ := h
  match p, hpc with
  | [], hpc => exact absurd heq (by simp)
  | r :: rest, hpc =>
    by_cases hr : r = root
    · subst hr
      simp only [if_pos rfl] at heq
      obtain rfl := Option.some_injective _ heq
      exact ⟨rest, c, rfl, hpc⟩
    · simp [hr] at heq

theorem zipWalk_tagUnder_same (root : String) (t : FileTree) :
    zipWalk (tagUnder root t) root = t.map (fun e => (root :: e.1, e.1, e.2)) := by
  unfold zipWalk tagUnder
  rw [List.filterMap_map]
  have h1 : ((fun (e : List String × String) =>
      match e.1 with
      | r :: rest => if r = root then some (e.1, rest, e.2) else none
      | [] => none) ∘ fun (e : List String × String) => (root :: e.1, e.2)) =
      some ∘ (fun (e : List String × String) => (root :: e.1, e.1, e.2)) := by
    funext e
    simp [Function.comp]
  rw [h1, List.filterMap_eq_map]

theorem zipWalk_tagUnder_ne (r' root : String) (h : r' ≠ root) (t : FileTree) :
    zipWalk (tagUnder r' t) root = [] := by
  induction t with
  | nil => rfl
  | cons e rest ih =>
    simp [tagUnder, zipWalk, List.filterMap_cons, h] at ih ⊢

theorem zip_backup_tagged (site db rootFs : FileTree)
    (hroot : ∀ e ∈ rootFs, e.1.head? ≠ some "site_data" ∧ e.1.head? ≠ some "database") :
    zip_backup (tagUnder "site_data" site ++ tagUnder "database" db ++ rootFs) =
      site ++ db := by
  unfold zip_backup
  rw [zipWalk_append, zipWalk_append, zipWalk_append, zipWalk_append,
    zipWalk_tagUnder_same, zipWalk_tagUnder_ne "database" "site_data" (by decide),
    zipWalk_eq_nil rootFs "site_data" (fun e he => (hroot e he).1),
    zipWalk_tagUnder_ne "site_data" "database" (by decide),
    zipWalk_tagUnder_same,
    zipWalk_eq_nil rootFs "database" (fun e he => (hroot e he).2)]
  simp [List.map_map, Function.comp_def]

/-- C10: every entry the packager writes originates from a file under the
`site_data` or `database` staging subtrees (stored under its path
relative to that subtree), and files sitting outside those subtrees —
the backup-root files such as the archive under construction, previously
dated archives and the log file — contribute no entry: adding them to
the walked tree leaves the archive unchanged. -/
theorem c10_pack_only_staging (fs extra : FileTree)
    (hextra : ∀ e ∈ extra, e.1.head? ≠ some "site_data" ∧ e.1.head? ≠ some "database") :
    zip_backup (fs ++ extra) = zip_backup fs ∧
    ∀ e ∈ zip_backup fs, ∃ p c, (p, c) ∈ fs ∧
      (p.head? = some "site_data" ∨ p.head? = some "database") ∧ e = (p.tail, c) := by
  constructor
  · unfold zip_backup
    rw [zipWalk_append, zipWalk_append,
      zipWalk_eq_nil extra "site_data" (fun e he => (hextra e he).1),
      zipWalk_eq_nil extra "database" (fun e he => (hextra e he).2)]
    simp
  · intro e he
    unfold zip_backup at he
    rw [List.mem_map] at he
    obtain ⟨t, ht, rfl⟩ := he
    rcases List.mem_append.mp ht with h | h
    · obtain ⟨rest, c, rfl, hmem⟩ := mem_zipWalk fs "site_data" t h
      exact ⟨"site_data" :: rest, c, hmem, Or.inl rfl, rfl⟩
    · obtain ⟨rest, c, rfl, hmem⟩ := mem_zipWalk fs "database" t h
      exact ⟨"database" :: rest, c, hmem, Or.inr rfl, rfl⟩

/-- C10 witness: a concrete backup tree whose root also holds the
archive being written and the log file. -/
theorem c10_witness :
    zip_backup ([(["site_data", "wp-config.php"], "cfg"),
        (["database", "database_backup.sql"], "sql")] ++
      [(["wordpress_backup_20240106.zip"], "bytes"), (["backup_log.txt"], "log")]) =
      zip_backup [(["site_data", "wp-config.php"], "cfg"),
        (["database", "database_backup.sql"], "sql")] ∧
    ∀ e ∈ zip_backup [(["site_data", "wp-config.php"], "cfg"),
        (["database", "database_backup.sql"], "sql")],
      ∃ p c, (p, c) ∈ ([(["site_data", "wp-config.php"], "cfg"),
          (["database", "database_backup.sql"], "sql")] : FileTree) ∧
        (p.head? = some "site_data" ∨ p.head? = some "database") ∧ e = (p.tail, c) :=
  c10_pack_only_staging
    [(["site_data", "wp-config.php"], "cfg"), (["database", "database_backup.sql"], "sql")]
    [(["wordpress_backup_20240106.zip"], "bytes"), (["backup_log.txt"], "log")]
    (by decide)

theorem zipRunGo_spec (readOk : List String → Bool)
    (l : List (List String × List String × String)) :
    ((zipRunGo readOk l).2 = true →
      (zipRunGo readOk l).1 = l.map (fun t => (t.2.1, t.2.2))) ∧
    (zipRunGo readOk l).1 <+: l.map (fun t => (t.2.1, t.2.2)) ∧
    (zipRunGo readOk l).2 = l.all (fun t => readOk t.1) := by
  induction l with
  | nil => exact ⟨fun _ => rfl, List.nil_prefix, rfl⟩
  | cons t rest ih =>
    by_cases h : readOk t.1 = true
    · refine ⟨?_, ?_, ?_⟩
      · intro hok
        simp only [zipRunGo, h, if_pos] at hok ⊢
        rw [ih.1 hok, List.map_cons]
      · simp only [zipRunGo, h, if_pos, List.map_cons]
        obtain ⟨u, hu⟩ := ih.2.1
        exact ⟨u, by rw [List.cons_append, hu]⟩
      · simp only [zipRunGo, h, if_pos, List.all_cons, h, Bool.true_and]
        exact ih.2.2
    · refine ⟨?_, ?_, ?_⟩
      · intro hok
        simp only [zipRunGo, h, if_neg] at hok
        simp at h
        simp [h] at hok
      · simp only [zipRunGo]
        rw [if_neg (by simpa using h)]
        exact List.nil_prefix
      · simp only [zipRunGo, List.all_cons]
        rw [if_neg (by simpa using h)]
        simp at h
        simp [h]

/-- C6 counterexample: the claim says that on failure the packaging call
fails before any file is visible at the destination path. The source
opens `zipfile.ZipFile(zip_file, 'w')` directly at the destination and
appends entries as it walks; when the read of the second staged file
raises, the call fails but the destination file exists and holds the
first entry — a partial archive is observable at the destination. -/
theorem c6_counterexample :
    (zip_backup_run [(["site_data", "f1"], "c1"), (["site_data", "f2"], "c2")]
        (fun p => decide (p ≠ ["site_data", "f2"]))).2 = false ∧
    (zip_backup_run [(["site_data", "f1"], "c1"), (["site_data", "f2"], "c2")]
        (fun p => decide (p ≠ ["site_data", "f2"]))).1 = [(["f1"], "c1")] := by
  decide

/-- C6 (amended): the packager writes the archive in place at its final
destination path: when every staged file is readable the call succeeds
and the destination holds exactly the discoverable entries, the call
succeeds if and only if every walked file is readable, and on failure
the destination still holds the (prefix of) entries written before the
failing read — a partial archive, not an absent file. -/
theorem c6_amended_in_place_write (fs : FileTree) (readOk : List String → Bool) :
    ((zip_backup_run fs readOk).2 = true →
      (zip_backup_run fs readOk).1 = zip_backup fs) ∧
    (zip_backup_run fs readOk).1 <+: zip_backup fs ∧
    ((zip_backup_run fs readOk).2 =
      (zipWalk fs "site_data" ++ zipWalk fs "database").all (fun t => readOk t.1)) :=
  zipRunGo_spec readOk (zipWalk fs "site_data" ++ zipWalk fs "database")

/-- C6 witness: the amended statement applied to a concrete staging tree
with an all-successful read oracle. -/
theorem c6_witness :
    ((zip_backup_run [(["site_data", "a", "b.txt"], "x"),
          (["database", "database_backup.sql"], "y")] (fun _ => true)).2 = true →
      (zip_backup_run [(["site_data", "a", "b.txt"], "x"),
          (["database", "database_backup.sql"], "y")] (fun _ => true)).1 =
        zip_backup [(["site_data", "a", "b.txt"], "x"),
          (["database", "database_backup.sql"], "y")]) ∧
    (zip_backup_run [(["site_data", "a", "b.txt"], "x"),
        (["database", "database_backup.sql"], "y")] (fun _ => true)).1 <+:
      zip_backup [(["site_data", "a", "b.txt"], "x"),
        (["database", "database_backup.sql"], "y")] ∧
    ((zip_backup_run [(["site_data", "a", "b.txt"], "x"),
          (["database", "database_backup.sql"], "y")] (fun _ => true)).2 =
      (zipWalk [(["site_data", "a", "b.txt"], "x"),
            (["database", "database_backup.sql"], "y")] "site_data" ++
          zipWalk [(["site_data", "a", "b.txt"], "x"),
            (["database", "database_backup.sql"], "y")] "database").all
        (fun t => (fun _ => true) t.1)) :=
  c6_amended_in_place_write
    [(["site_data", "a", "b.txt"], "x"), (["database", "database_backup.sql"], "y")]
    (fun _ => true)

theorem upload_backup_allOk (nowUs keep_days : Int) (listing : List String) :
    (upload_backup nowUs keep_days listing true true (fun _ => true)).2 = true ∧
    FtpOp.stor ∈ (upload_backup nowUs keep_days listing true true (fun _ => true)).1 := by
  unfold upload_backup
  by_cases hk : keep_days > 0
  · rw [deleteLoop_allOk]
    simp [hk]
  · simp [hk]

/-- C2: when the database dump exits non-zero (`dumpOk = false`), the
failure is caught and logged, the run continues through packaging and
shipping, the produced archive holds exactly the copied site files plus
whatever state the database staging area was left in, and — all the
later stages succeeding — the run's exit status is success: the dump
failure alone never fails the run. -/
theorem c2_dump_failure_nonfatal (todayY todayM todayD : Nat)
    (localFiles : List String) (wp stagingSite stagingDb rootFs : FileTree)
    (dumpOut : String) (nowUs keep_days : Int) (listing : List String)
    (hroot : ∀ e ∈ rootFs, e.1.head? ≠ some "site_data" ∧ e.1.head? ≠ some "database") :
    (main_run todayY todayM todayD localFiles wp stagingSite stagingDb rootFs false
        dumpOut nowUs keep_days listing true true (fun _ => true)).exitOk = true ∧
    (main_run todayY todayM todayD localFiles wp stagingSite stagingDb rootFs false
        dumpOut nowUs keep_days listing true true (fun _ => true)).dumpErrorLogged = true ∧
    FtpOp.stor ∈ (main_run todayY todayM todayD localFiles wp stagingSite stagingDb rootFs
        false dumpOut nowUs keep_days listing true true (fun _ => true)).ftpTrace ∧
    (main_run todayY todayM todayD localFiles wp stagingSite stagingDb rootFs false
        dumpOut nowUs keep_days listing true true (fun _ => true)).archiveEntries =
      copytree wp stagingSite ++ stagingDb ∧
    ∀ e ∈ wp, e ∈ (main_run todayY todayM todayD localFiles wp stagingSite stagingDb rootFs
        false dumpOut nowUs keep_days listing true true (fun _ => true)).archiveEntries := by
  have harch : (main_run todayY todayM todayD localFiles wp stagingSite stagingDb rootFs
      false dumpOut nowUs keep_days listing true true (fun _ => true)).archiveEntries =
      copytree wp stagingSite ++ stagingDb := by
    show zip_backup (tagUnder "site_data" (copytree wp stagingSite) ++
      tagUnder "database" stagingDb ++ rootFs) = copytree wp stagingSite ++ stagingDb
    exact zip_backup_tagged (copytree wp stagingSite) stagingDb rootFs hroot
  refine ⟨(upload_backup_allOk nowUs keep_days listing).1, rfl,
    (upload_backup_allOk nowUs keep_days listing).2, harch, ?_⟩
  intro e he
  rw [harch]
  exact List.mem_append_left _ (List.mem_append_left _ he)

/-- C2 witness: a concrete failed-dump run: three site files, a
pre-existing empty database dump file in staging, remote stage all
successful. -/
theorem c2_witness :
    (main_run 2024 1 6 ["wordpress_backup_20240105.zip"]
        [(["index.php"], "a"), (["wp-config.php"], "b"), (["wp-content", "x.css"], "c")]
        [] [(["database_backup.sql"], "")] [(["backup_log.txt"], "log")]
        false "ignored" 63840038400000000 3 [] true true (fun _ => true)).exitOk = true ∧
    (main_run 2024 1 6 ["wordpress_backup_20240105.zip"]
        [(["index.php"], "a"), (["wp-config.php"], "b"), (["wp-content", "x.css"], "c")]
        [] [(["database_backup.sql"], "")] [(["backup_log.txt"], "log")]
        false "ignored" 63840038400000000 3 [] true true (fun _ => true)).dumpErrorLogged
      = true ∧
    FtpOp.stor ∈ (main_run 2024 1 6 ["wordpress_backup_20240105.zip"]
        [(["index.php"], "a"), (["wp-config.php"], "b"), (["wp-content", "x.css"], "c")]
        [] [(["database_backup.sql"], "")] [(["backup_log.txt"], "log")]
        false "ignored" 63840038400000000 3 [] true true (fun _ => true)).ftpTrace ∧
    (main_run 2024 1 6 ["wordpress_backup_20240105.zip"]
        [(["index.php"], "a"), (["wp-config.php"], "b"), (["wp-content", "x.css"], "c")]
        [] [(["database_backup.sql"], "")] [(["backup_log.txt"], "log")]
        false "ignored" 63840038400000000 3 [] true true (fun _ => true)).archiveEntries =
      copytree [(["index.php"], "a"), (["wp-config.php"], "b"), (["wp-content", "x.css"], "c")]
          [] ++ [(["database_backup.sql"], "")] ∧
    ∀ e ∈ ([(["index.php"], "a"), (["wp-config.php"], "b"),
        (["wp-content", "x.css"], "c")] : FileTree),
      e ∈ (main_run 2024 1 6 ["wordpress_backup_20240105.zip"]
        [(["index.php"], "a"), (["wp-config.php"], "b"), (["wp-content", "x.css"], "c")]
        [] [(["database_backup.sql"], "")] [(["backup_log.txt"], "log")]
        false "ignored" 63840038400000000 3 [] true true (fun _ => true)).archiveEntries :=
  c2_dump_failure_nonfatal 2024 1 6 ["wordpress_backup_20240105.zip"]
    [(["index.php"], "a"), (["wp-config.php"], "b"), (["wp-content", "x.css"], "c")]
    [] [(["database_backup.sql"], "")] [(["backup_log.txt"], "log")]
    "ignored" 63840038400000000 3 [] (by decide)
